import Mathlib

/-!
Verification of the statistics engine of a z-score anomaly detector.

The source program keeps, per metric identifier, a record of baseline
mean and standard deviation together with the most recent window
statistics, and flags samples whose absolute z-score strictly exceeds a
configured threshold.  The embedding below translates the three engine
operations, the Go functions `GetBaseline`, `UpdateCurrentStats` and
`DetectAnomalies` of a `SimpleAnomalyDetector`, into Lean.

Modelling conventions:
* `float64` values are idealised as real numbers.  The one place where
  IEEE semantics is observable to the program logic, division by a zero
  standard deviation, is modelled explicitly by the type `FloatR` whose
  values are a finite real, positive or negative infinity, or NaN, with
  the IEEE rules for `x / 0`, absolute value and ordered comparison.
* Go maps are modelled as functions into `Option`; writing a key
  overwrites; a lenient read of a missing key yields the zero value.
* `math.Sqrt` is modelled by `Real.sqrt`.
* Timestamps only flow through the program as opaque labels, so they are
  modelled by natural numbers.
-/

open scoped Classical

/-- IEEE-style extended value produced by a `float64` division: a finite
real, one of the two infinities, or NaN. -/
inductive FloatR where
  | finite (x : ℝ)
  | posInf
  | negInf
  | nan

/-- Go `float64` division `x / y` for a finite numerator and denominator:
ordinary division when `y ≠ 0`, otherwise the IEEE special values
`0/0 = NaN` and `x/0 = ±Inf` according to the sign of `x`. -/
noncomputable def goDiv (x y : ℝ) : FloatR :=
  if y = 0 then
    if x = 0 then FloatR.nan
    else if 0 < x then FloatR.posInf
    else FloatR.negInf
  else FloatR.finite (x / y)

/-- `math.Abs` on the extended values: `|NaN| = NaN`, `|±Inf| = +Inf`. -/
noncomputable def FloatR.abs : FloatR → FloatR
  | FloatR.finite x => FloatR.finite |x|
  | FloatR.posInf => FloatR.posInf
  | FloatR.negInf => FloatR.posInf
  | FloatR.nan => FloatR.nan

/-- IEEE comparison `z > t` against a finite threshold `t`: a finite value
compares as a real; `+Inf > t` holds; `-Inf > t` and `NaN > t` do not. -/
def FloatR.gtReal : FloatR → ℝ → Prop
  | FloatR.finite x, t => t < x
  | FloatR.posInf, _ => True
  | FloatR.negInf, _ => False
  | FloatR.nan, _ => False

/-- The anomaly test of the source, `math.Abs(zScore) > zScoreThreshold`. -/
noncomputable def FloatR.absGt (z : FloatR) (t : ℝ) : Prop :=
  FloatR.gtReal (FloatR.abs z) t

/-- One data point of a time series: the double value of the point and the
end time of its interval (`point.Value.GetDoubleValue()` and
`point.Interval.EndTime`). -/
structure MetricPoint where
  value : ℝ
  endTime : Nat

/-- One time series of the input batch: its metric type string
(`metric.Metric.Type`) and its list of points (`metric.Points`). -/
structure TimeSeries where
  metricType : String
  points : List MetricPoint

/-- The per-metric statistics record `MetricStats` of the source: baseline
mean and standard deviation, and the statistics of the current window. -/
structure MetricStats where
  mean : ℝ
  stddev : ℝ
  currentMean : ℝ
  currentStdDev : ℝ

/-- The Go zero value of `MetricStats`, produced by a lenient map read. -/
def MetricStats.zero : MetricStats := ⟨0, 0, 0, 0⟩

/-- The `metricsStats` map of the detector, keyed by metric type. -/
def StatsMap : Type := String → Option MetricStats

/-- The `zScores` diagnostic map of the detector. -/
def ZMap : Type := String → Option FloatR

/-- Writing one key of a Go map: the new binding shadows the old one. -/
def mapInsert (m : StatsMap) (k : String) (v : MetricStats) : StatsMap :=
  fun k' => if k' = k then some v else m k'

/-- Writing one key of the `zScores` map. -/
def zInsert (m : ZMap) (k : String) (v : FloatR) : ZMap :=
  fun k' => if k' = k then some v else m k'

/-- An anomaly record emitted by detection.  The Go struct carries a
`Message` string embedding the z-score formatted to two decimals; the
embedding records the z-score value itself in its place. -/
structure Anomaly where
  metricName : String
  value : ℝ
  timestamp : Nat
  zScore : FloatR

/-- The `SimpleAnomalyDetector` state: the per-metric statistics map, the
`initialised` flag, and the per-cycle z-score report. -/
structure SimpleAnomalyDetector where
  metricsStats : StatsMap
  initialised : Bool
  zScores : ZMap

/-- The zero-value detector `&SimpleAnomalyDetector\x7b\x7d` created at
process start: empty maps, `initialised = false`. -/
def initialDetector : SimpleAnomalyDetector :=
  ⟨fun _ => none, false, fun _ => none⟩

/-- The single loop of the source that accumulates `sum` and `count` over
the points of one series. -/
noncomputable def sumCount (ps : List MetricPoint) : ℝ × ℝ :=
  ps.foldl (fun acc p => (acc.1 + p.value, acc.2 + 1)) (0, 0)

/-- The loop accumulating `sumOfSquares`, the sum of `deviation * deviation`
for `deviation = value - mean`. -/
noncomputable def sqDevSum (ps : List MetricPoint) (mu : ℝ) : ℝ :=
  ps.foldl (fun s p => s + (p.value - mu) * (p.value - mu)) 0

/-- Body of the per-series loop of `GetBaseline`: skip a series with no
points, otherwise store mean and population standard deviation (current
fields left at the zero value). -/
noncomputable def baselineStep (m : StatsMap) (s : TimeSeries) : StatsMap :=
  let sc := sumCount s.points
  if sc.2 = 0 then m
  else
    let mean := sc.1 / sc.2
    let sumOfSquares := sqDevSum s.points mean
    let stddev := Real.sqrt (sumOfSquares / sc.2)
    mapInsert m s.metricType ⟨mean, stddev, 0, 0⟩

/-- `GetBaseline`: replace the whole statistics map by one rebuilt from the
input batch and set `initialised` unconditionally. -/
noncomputable def getBaseline (d : SimpleAnomalyDetector) (ms : List TimeSeries) :
    SimpleAnomalyDetector :=
  { d with metricsStats := ms.foldl baselineStep (fun _ => none), initialised := true }

/-- Body of the per-series loop of `UpdateCurrentStats`: skip a series with
no points, otherwise read the existing record leniently (zero value when
the key is missing), overwrite its current-window fields and write it
back. -/
noncomputable def updateStep (m : StatsMap) (s : TimeSeries) : StatsMap :=
  let sc := sumCount s.points
  if sc.2 = 0 then m
  else
    let currentMean := sc.1 / sc.2
    let sumOfSquares := sqDevSum s.points currentMean
    let currentStdDev := Real.sqrt (sumOfSquares / sc.2)
    let stats := (m s.metricType).getD MetricStats.zero
    mapInsert m s.metricType
      { stats with currentMean := currentMean, currentStdDev := currentStdDev }

/-- `UpdateCurrentStats`: fold the update over the input batch. -/
noncomputable def updateCurrentStats (d : SimpleAnomalyDetector) (ms : List TimeSeries) :
    SimpleAnomalyDetector :=
  { d with metricsStats := ms.foldl updateStep d.metricsStats }

/-- The z-score of one point against one statistics record, the source line
`zScore := (value - stats.mean) / stats.stddev` under IEEE semantics. -/
noncomputable def zScoreOf (stats : MetricStats) (p : MetricPoint) : FloatR :=
  goDiv (p.value - stats.mean) stats.stddev

/-- The key under which a z-score is recorded in the diagnostic report. -/
def zScoreKey (name : String) (ts : Nat) : String :=
  name ++ " at " ++ toString ts

/-- Body of the per-point loop of `DetectAnomalies`: record the z-score and
append an anomaly when `math.Abs(zScore) > zScoreThreshold`. -/
noncomputable def pointStep (name : String) (stats : MetricStats) (t : ℝ)
    (acc : List Anomaly × ZMap) (p : MetricPoint) : List Anomaly × ZMap :=
  let z := zScoreOf stats p
  let zs := zInsert acc.2 (zScoreKey name p.endTime) z
  if FloatR.absGt z t then (acc.1 ++ [⟨name, p.value, p.endTime, z⟩], zs)
  else (acc.1, zs)

/-- Body of the per-series loop of `DetectAnomalies`: a metric with no
recorded statistics is skipped, otherwise its points are scored. -/
noncomputable def seriesStep (m : StatsMap) (t : ℝ)
    (acc : List Anomaly × ZMap) (s : TimeSeries) : List Anomaly × ZMap :=
  match m s.metricType with
  | none => acc
  | some stats => s.points.foldl (pointStep s.metricType stats t) acc

/-- `DetectAnomalies`: fail when the baseline was never initialised;
otherwise rebuild the z-score report from scratch and return the anomaly
list.  The returned detector is the post-call state. -/
noncomputable def detectAnomalies (d : SimpleAnomalyDetector) (ms : List TimeSeries)
    (t : ℝ) : SimpleAnomalyDetector × Except String (List Anomaly) :=
  if d.initialised = false then (d, Except.error "baseline not initialised")
  else
    let r := ms.foldl (seriesStep d.metricsStats t) ([], fun _ => none)
    ({ d with zScores := r.2 }, Except.ok r.1)

/-- Reference definition following the spec: the arithmetic mean of the
values of a sample list. -/
noncomputable def arithMean (ps : List MetricPoint) : ℝ :=
  (ps.map MetricPoint.value).sum / ps.length

/-- Reference definition following the spec: the population variance, mean
squared deviation with divisor equal to the sample count. -/
noncomputable def popVariance (ps : List MetricPoint) : ℝ :=
  (ps.map (fun p => (p.value - arithMean ps) ^ 2)).sum / ps.length

/-- Reference definition following the spec: the population standard
deviation. -/
noncomputable def popStdDev (ps : List MetricPoint) : ℝ :=
  Real.sqrt (popVariance ps)

/-! ### Map lemmas -/

theorem mapInsert_self (m : StatsMap) (k : String) (v : MetricStats) :
    mapInsert m k v k = some v := by
  simp [mapInsert]

theorem mapInsert_ne (m : StatsMap) (k k' : String) (v : MetricStats) (h : k' ≠ k) :
    mapInsert m k v k' = m k' := by
  simp [mapInsert, h]

/-! ### The accumulation loops compute sums -/

theorem sumCount_go (ps : List MetricPoint) :
    ∀ a b : ℝ, ps.foldl (fun acc p => (acc.1 + p.value, acc.2 + 1)) (a, b) =
      (a + (ps.map MetricPoint.value).sum, b + ps.length) := by
  induction ps with
  | nil => intro a b; simp
  | cons p ps ih =>
    intro a b
    rw [List.foldl_cons, ih]
    simp only [Prod.mk.injEq, List.map_cons, List.sum_cons, List.length_cons]
    constructor
    · ring
    · push_cast; ring

theorem sumCount_eq (ps : List MetricPoint) :
    sumCount ps = ((ps.map MetricPoint.value).sum, (ps.length : ℝ)) := by
  simpa using sumCount_go ps 0 0

theorem sqDevSum_go (mu : ℝ) (ps : List MetricPoint) :
    ∀ a : ℝ, ps.foldl (fun s p => s + (p.value - mu) * (p.value - mu)) a =
      a + (ps.map (fun p => (p.value - mu) ^ 2)).sum := by
  induction ps with
  | nil => intro a; simp
  | cons p ps ih =>
    intro a
    rw [List.foldl_cons, ih]
    simp; ring

theorem sqDevSum_eq (ps : List MetricPoint) (mu : ℝ) :
    sqDevSum ps mu = (ps.map (fun p => (p.value - mu) ^ 2)).sum := by
  simpa using sqDevSum_go mu ps 0

theorem length_cast_eq_zero (ps : List MetricPoint) :
    ((ps.length : ℝ) = 0) ↔ ps = [] := by
  rw [Nat.cast_eq_zero, List.length_eq_zero]

/-! ### Unfolding the per-series steps -/

theorem baselineStep_empty (m : StatsMap) (s : TimeSeries) (h : s.points = []) :
    baselineStep m s = m := by
  simp [baselineStep, sumCount_eq, h]

theorem baselineStep_ne (m : StatsMap) (s : TimeSeries) (h : s.points ≠ []) :
    baselineStep m s =
      mapInsert m s.metricType ⟨arithMean s.points, popStdDev s.points, 0, 0⟩ := by
  have hlen : ((s.points.length : ℝ)) ≠ 0 := fun hc => h ((length_cast_eq_zero _).mp hc)
  simp only [baselineStep, sumCount_eq]
  rw [if_neg hlen]
  simp only [sqDevSum_eq, arithMean, popStdDev, popVariance]

theorem updateStep_empty (m : StatsMap) (s : TimeSeries) (h : s.points = []) :
    updateStep m s = m := by
  simp [updateStep, sumCount_eq, h]

theorem updateStep_ne (m : StatsMap) (s : TimeSeries) (h : s.points ≠ []) :
    updateStep m s =
      mapInsert m s.metricType
        { (m s.metricType).getD MetricStats.zero with
            currentMean := arithMean s.points, currentStdDev := popStdDev s.points } := by
  have hlen : ((s.points.length : ℝ)) ≠ 0 := fun hc => h ((length_cast_eq_zero _).mp hc)
  simp only [updateStep, sumCount_eq]
  rw [if_neg hlen]
  simp only [sqDevSum_eq, arithMean, popStdDev, popVariance]

/-! ### Detection lemmas -/

theorem detect_not_init (d : SimpleAnomalyDetector) (ms : List TimeSeries) (t : ℝ)
    (h : d.initialised = false) :
    detectAnomalies d ms t = (d, Except.error "baseline not initialised") := by
  simp [detectAnomalies, h]

theorem detect_frame (d : SimpleAnomalyDetector) (ms : List TimeSeries) (t : ℝ) :
    ∃ zs : ZMap, (detectAnomalies d ms t).1 = { d with zScores := zs } := by
  by_cases h : d.initialised = false
  · exact ⟨d.zScores, by rw [detect_not_init d ms t h]⟩
  · exact ⟨(ms.foldl (seriesStep d.metricsStats t) ([], fun _ => none)).2,
      by simp [detectAnomalies, h]⟩

theorem detect_metricsStats (d : SimpleAnomalyDetector) (ms : List TimeSeries) (t : ℝ) :
    (detectAnomalies d ms t).1.metricsStats = d.metricsStats := by
  obtain ⟨zs, hz⟩ := detect_frame d ms t
  rw [hz]

theorem detect_initialised (d : SimpleAnomalyDetector) (ms : List TimeSeries) (t : ℝ) :
    (detectAnomalies d ms t).1.initialised = d.initialised := by
  obtain ⟨zs, hz⟩ := detect_frame d ms t
  rw [hz]

/-- The per-point anomaly filter the inner loop realises. -/
noncomputable def pointFilter (name : String) (stats : MetricStats) (t : ℝ)
    (p : MetricPoint) : Option Anomaly :=
  if FloatR.absGt (zScoreOf stats p) t then
    some ⟨name, p.value, p.endTime, zScoreOf stats p⟩
  else none

theorem pointStep_fold (name : String) (stats : MetricStats) (t : ℝ)
    (ps : List MetricPoint) :
    ∀ acc : List Anomaly × ZMap,
      (ps.foldl (pointStep name stats t) acc).1 =
        acc.1 ++ ps.filterMap (pointFilter name stats t) := by
  induction ps with
  | nil => intro acc; simp
  | cons p ps ih =>
    intro acc
    rw [List.foldl_cons, ih, List.filterMap_cons]
    by_cases h : FloatR.absGt (zScoreOf stats p) t
    · rw [pointStep, if_pos h, pointFilter, if_pos h]
      simp
    · rw [pointStep, if_neg h, pointFilter, if_neg h]

theorem detect_single (d : SimpleAnomalyDetector) (name : String)
    (stats : MetricStats) (ps : List MetricPoint) (t : ℝ)
    (hinit : d.initialised = true) (hlook : d.metricsStats name = some stats) :
    (detectAnomalies d [⟨name, ps⟩] t).2 =
      Except.ok (ps.filterMap (pointFilter name stats t)) := by
  rw [detectAnomalies, if_neg (by rw [hinit]; simp)]
  simp only [List.foldl_cons, List.foldl_nil]
  rw [seriesStep]
  simp only [hlook]
  rw [pointStep_fold]
  simp

/-! ### Case lemmas for the IEEE division and comparison -/

theorem goDiv_of_ne (x y : ℝ) (h : y ≠ 0) : goDiv x y = FloatR.finite (x / y) := by
  rw [goDiv, if_neg h]

theorem goDiv_zero_nan : goDiv 0 0 = FloatR.nan := by
  rw [goDiv, if_pos rfl, if_pos rfl]

theorem goDiv_zero_pos (x : ℝ) (h : 0 < x) : goDiv x 0 = FloatR.posInf := by
  rw [goDiv, if_pos rfl, if_neg (ne_of_gt h), if_pos h]

theorem goDiv_zero_neg (x : ℝ) (h : x < 0) : goDiv x 0 = FloatR.negInf := by
  rw [goDiv, if_pos rfl, if_neg (ne_of_lt h), if_neg (not_lt.mpr (le_of_lt h))]

theorem absGt_posInf (t : ℝ) : FloatR.absGt FloatR.posInf t := by
  simp [FloatR.absGt, FloatR.abs, FloatR.gtReal]

theorem absGt_negInf (t : ℝ) : FloatR.absGt FloatR.negInf t := by
  simp [FloatR.absGt, FloatR.abs, FloatR.gtReal]

theorem not_absGt_nan (t : ℝ) : ¬ FloatR.absGt FloatR.nan t := by
  simp [FloatR.absGt, FloatR.abs, FloatR.gtReal]

theorem absGt_finite_iff (x t : ℝ) : FloatR.absGt (FloatR.finite x) t ↔ t < |x| :=
  Iff.rfl

/-! ### Lookup preservation across the folds -/

theorem baselineFold_lookup (name : String) (ms : List TimeSeries)
    (hall : ∀ s ∈ ms, s.metricType = name → s.points = []) :
    ∀ m : StatsMap, (ms.foldl baselineStep m) name = m name := by
  induction ms with
  | nil => intro m; rfl
  | cons s ms ih =>
    intro m
    rw [List.foldl_cons, ih (fun s' hs' => hall s' (List.mem_cons_of_mem _ hs'))]
    by_cases hp : s.points = []
    · rw [baselineStep_empty m s hp]
    · have hname : s.metricType ≠ name :=
        fun hn => hp (hall s (List.mem_cons_self s ms) hn)
      rw [baselineStep_ne m s hp, mapInsert_ne _ _ _ _ (Ne.symm hname)]

theorem updateFold_lookup (name : String) (ms : List TimeSeries)
    (hall : ∀ s ∈ ms, s.metricType = name → s.points = []) :
    ∀ m : StatsMap, (ms.foldl updateStep m) name = m name := by
  induction ms with
  | nil => intro m; rfl
  | cons s ms ih =>
    intro m
    rw [List.foldl_cons, ih (fun s' hs' => hall s' (List.mem_cons_of_mem _ hs'))]
    by_cases hp : s.points = []
    · rw [updateStep_empty m s hp]
    · have hname : s.metricType ≠ name :=
        fun hn => hp (hall s (List.mem_cons_self s ms) hn)
      rw [updateStep_ne m s hp, mapInsert_ne _ _ _ _ (Ne.symm hname)]

/-! ### Single-series unfoldings of the two statistics passes -/

theorem getBaseline_single (d : SimpleAnomalyDetector) (name : String)
    (ps : List MetricPoint) (h : ps ≠ []) :
    (getBaseline d [⟨name, ps⟩]).metricsStats name =
      some ⟨arithMean ps, popStdDev ps, 0, 0⟩ := by
  have hps : (⟨name, ps⟩ : TimeSeries).points ≠ [] := h
  simp only [getBaseline, List.foldl_cons, List.foldl_nil]
  rw [baselineStep_ne _ _ hps]
  simp [mapInsert]

theorem updateCurrentStats_single (d : SimpleAnomalyDetector) (name : String)
    (ps : List MetricPoint) (h : ps ≠ []) :
    (updateCurrentStats d [⟨name, ps⟩]).metricsStats name =
      some { (d.metricsStats name).getD MetricStats.zero with
               currentMean := arithMean ps, currentStdDev := popStdDev ps } := by
  have hps : (⟨name, ps⟩ : TimeSeries).points ≠ [] := h
  simp only [updateCurrentStats, List.foldl_cons, List.foldl_nil]
  rw [updateStep_ne _ _ hps]
  simp [mapInsert]

/-! ### Reachable states and the standard-deviation invariant -/

/-- One engine call, as issued by the driver loop. -/
inductive EngineOp where
  | init (ms : List TimeSeries)
  | update (ms : List TimeSeries)
  | detect (ms : List TimeSeries) (t : ℝ)

/-- The state transition performed by one engine call. -/
noncomputable def applyOp (d : SimpleAnomalyDetector) : EngineOp → SimpleAnomalyDetector
  | EngineOp.init ms => getBaseline d ms
  | EngineOp.update ms => updateCurrentStats d ms
  | EngineOp.detect ms t => (detectAnomalies d ms t).1

/-- Running a sequence of engine calls from a given state. -/
noncomputable def runOps (d : SimpleAnomalyDetector) (ops : List EngineOp) :
    SimpleAnomalyDetector :=
  ops.foldl applyOp d

/-- Every record of the map has non-negative standard deviations. -/
def StdDevsOk (m : StatsMap) : Prop :=
  ∀ name st, m name = some st → 0 ≤ st.stddev ∧ 0 ≤ st.currentStdDev

theorem stdDevsOk_empty : StdDevsOk (fun _ => none) := by
  intro name st h
  exact Option.noConfusion h

theorem stdDevsOk_insert (m : StatsMap) (k : String) (v : MetricStats)
    (hm : StdDevsOk m) (hv : 0 ≤ v.stddev ∧ 0 ≤ v.currentStdDev) :
    StdDevsOk (mapInsert m k v) := by
  intro name st h
  by_cases hn : name = k
  · subst hn
    rw [mapInsert_self] at h
    obtain rfl := Option.some.inj h
    exact hv
  · rw [mapInsert_ne _ _ _ _ hn] at h
    exact hm name st h

theorem stdDevsOk_baselineStep (m : StatsMap) (s : TimeSeries) (hm : StdDevsOk m) :
    StdDevsOk (baselineStep m s) := by
  by_cases hp : s.points = []
  · rw [baselineStep_empty m s hp]; exact hm
  · rw [baselineStep_ne m s hp]
    exact stdDevsOk_insert _ _ _ hm ⟨Real.sqrt_nonneg _, le_refl 0⟩

theorem stdDevsOk_updateStep (m : StatsMap) (s : TimeSeries) (hm : StdDevsOk m) :
    StdDevsOk (updateStep m s) := by
  by_cases hp : s.points = []
  · rw [updateStep_empty m s hp]; exact hm
  · rw [updateStep_ne m s hp]
    refine stdDevsOk_insert _ _ _ hm ⟨?_, Real.sqrt_nonneg _⟩
    cases hlk : m s.metricType with
    | none => simp [MetricStats.zero]
    | some st0 => simpa using (hm _ _ hlk).1

theorem stdDevsOk_baselineFold (ms : List TimeSeries) :
    ∀ m : StatsMap, StdDevsOk m → StdDevsOk (ms.foldl baselineStep m) := by
  induction ms with
  | nil => intro m hm; exact hm
  | cons s ms ih => intro m hm; exact ih _ (stdDevsOk_baselineStep m s hm)

theorem stdDevsOk_updateFold (ms : List TimeSeries) :
    ∀ m : StatsMap, StdDevsOk m → StdDevsOk (ms.foldl updateStep m) := by
  induction ms with
  | nil => intro m hm; exact hm
  | cons s ms ih => intro m hm; exact ih _ (stdDevsOk_updateStep m s hm)

theorem stdDevsOk_applyOp (d : SimpleAnomalyDetector) (op : EngineOp)
    (hd : StdDevsOk d.metricsStats) : StdDevsOk (applyOp d op).metricsStats := by
  cases op with
  | init ms => exact stdDevsOk_baselineFold ms _ stdDevsOk_empty
  | update ms => exact stdDevsOk_updateFold ms _ hd
  | detect ms t =>
    have hms := detect_metricsStats d ms t
    rw [applyOp, hms]
    exact hd

theorem stdDevsOk_runOps (ops : List EngineOp) :
    ∀ d : SimpleAnomalyDetector, StdDevsOk d.metricsStats →
      StdDevsOk (runOps d ops).metricsStats := by
  induction ops with
  | nil => intro d hd; exact hd
  | cons op ops ih => intro d hd; exact ih _ (stdDevsOk_applyOp d op hd)

/-! ### The claims -/

/-- C1: for a metric whose stored baseline standard deviation is zero,
detection flags a sample exactly when its value differs from the baseline
mean, for every finite positive threshold: a differing sample is always
flagged and a coinciding sample never is. -/
theorem claim_C1_zero_variance (d : SimpleAnomalyDetector) (name : String)
    (stats : MetricStats) (t : ℝ) (p q : MetricPoint)
    (hinit : d.initialised = true) (hlook : d.metricsStats name = some stats)
    (hstd : stats.stddev = 0) (ht : 0 < t)
    (hp : p.value ≠ stats.mean) (hq : q.value = stats.mean) :
    (detectAnomalies d [⟨name, [p]⟩] t).2 =
      Except.ok [⟨name, p.value, p.endTime, zScoreOf stats p⟩] ∧
    (detectAnomalies d [⟨name, [q]⟩] t).2 = Except.ok [] := by
  constructor
  · rw [detect_single d name stats [p] t hinit hlook]
    have habs : FloatR.absGt (zScoreOf stats p) t := by
      rw [zScoreOf, hstd]
      rcases lt_trichotomy (p.value - stats.mean) 0 with hlt | heq | hgt
      · rw [goDiv_zero_neg _ hlt]; exact absGt_negInf t
      · exact absurd (sub_eq_zero.mp heq) hp
      · rw [goDiv_zero_pos _ hgt]; exact absGt_posInf t
    have hf : pointFilter name stats t p =
        some ⟨name, p.value, p.endTime, zScoreOf stats p⟩ := by
      rw [pointFilter, if_pos habs]
    simp [List.filterMap_cons, hf]
  · rw [detect_single d name stats [q] t hinit hlook]
    have hnan : zScoreOf stats q = FloatR.nan := by
      rw [zScoreOf, hstd, hq, sub_self]
      exact goDiv_zero_nan
    have hf : pointFilter name stats t q = none := by
      rw [pointFilter, hnan, if_neg (not_absGt_nan t)]
    simp [List.filterMap_cons, hf]

/-- C3: detection before any initialisation fails with the
not-initialised error, returns no anomaly list, and leaves the detector
state unchanged. -/
theorem claim_C3_not_initialised (d : SimpleAnomalyDetector)
    (ms : List TimeSeries) (t : ℝ) (h : d.initialised = false) :
    detectAnomalies d ms t = (d, Except.error "baseline not initialised") :=
  detect_not_init d ms t h

/-- C5: initialisation creates no entry for a metric whose sample lists
are all empty and raises no error, and it sets the initialised flag
unconditionally, whatever the input batch. -/
theorem claim_C5_empty_skip (d : SimpleAnomalyDetector) (ms : List TimeSeries)
    (name : String) :
    (getBaseline d ms).initialised = true ∧
    ((∀ s ∈ ms, s.metricType = name → s.points = []) →
      (getBaseline d ms).metricsStats name = none) := by
  refine ⟨rfl, fun hall => ?_⟩
  show (ms.foldl baselineStep (fun _ => none)) name = none
  rw [baselineFold_lookup name ms hall]

/-- C6: an update batch that brings no samples for an already-recorded
metric leaves that metric's stored record, baseline and current fields
alike, exactly unchanged. -/
theorem claim_C6_empty_update_noop (d : SimpleAnomalyDetector)
    (ms : List TimeSeries) (name : String) (st : MetricStats)
    (hlook : d.metricsStats name = some st)
    (hall : ∀ s ∈ ms, s.metricType = name → s.points = []) :
    (updateCurrentStats d ms).metricsStats name = some st := by
  show (ms.foldl updateStep d.metricsStats) name = some st
  rw [updateFold_lookup name ms hall, hlook]

/-- C9: in every state reachable from the zero-value detector by any
sequence of engine calls, every stored record has a non-negative baseline
standard deviation and a non-negative current standard deviation. -/
theorem claim_C9_stddev_nonneg (ops : List EngineOp) (name : String)
    (st : MetricStats)
    (h : (runOps initialDetector ops).metricsStats name = some st) :
    0 ≤ st.stddev ∧ 0 ≤ st.currentStdDev :=
  stdDevsOk_runOps ops initialDetector stdDevsOk_empty name st h

/-- C10: detection never changes the statistics map or the initialised
flag; its whole state effect is confined to the z-score report field. -/
theorem claim_C10_detect_frame (d : SimpleAnomalyDetector)
    (ms : List TimeSeries) (t : ℝ) :
    (detectAnomalies d ms t).1.metricsStats = d.metricsStats ∧
    (detectAnomalies d ms t).1.initialised = d.initialised ∧
    ∃ zs : ZMap, (detectAnomalies d ms t).1 = { d with zScores := zs } :=
  ⟨detect_metricsStats d ms t, detect_initialised d ms t, detect_frame d ms t⟩

/-- C2: for a non-empty sample list, initialisation stores as baseline
mean the arithmetic mean of the values and as baseline standard deviation
the population standard deviation, the square root of the mean squared
deviation with divisor equal to the sample count. -/
theorem claim_C2_baseline_stats (d : SimpleAnomalyDetector) (name : String)
    (ps : List MetricPoint) (h : ps ≠ []) :
    (getBaseline d [⟨name, ps⟩]).metricsStats name =
      some ⟨(ps.map MetricPoint.value).sum / ps.length,
            Real.sqrt
              ((ps.map (fun p =>
                (p.value - (ps.map MetricPoint.value).sum / ps.length) ^ 2)).sum
                / ps.length),
            0, 0⟩ := by
  rw [getBaseline_single d name ps h]
  rfl

/-- C4: for a metric with a recorded baseline entry, a sample is emitted
as an anomaly exactly when the IEEE comparison |zScore| > threshold holds
(strict); an infinite z-score is flagged whatever the finite threshold,
and a finite z-score whose absolute value equals the threshold exactly is
not flagged.  A NaN z-score (zero deviation over a zero-variance
baseline) compares false and is likewise not flagged. -/
theorem claim_C4_threshold_strict (d : SimpleAnomalyDetector) (name : String)
    (stats : MetricStats) (ps : List MetricPoint) (t : ℝ)
    (hinit : d.initialised = true) (hlook : d.metricsStats name = some stats) :
    ∃ l : List Anomaly, (detectAnomalies d [⟨name, ps⟩] t).2 = Except.ok l ∧
      (∀ p ∈ ps,
        ((⟨name, p.value, p.endTime, zScoreOf stats p⟩ : Anomaly) ∈ l ↔
          FloatR.absGt (zScoreOf stats p) t)) ∧
      (∀ p ∈ ps,
        (zScoreOf stats p = FloatR.posInf ∨ zScoreOf stats p = FloatR.negInf) →
          (⟨name, p.value, p.endTime, zScoreOf stats p⟩ : Anomaly) ∈ l) ∧
      (∀ p ∈ ps, ∀ x : ℝ, zScoreOf stats p = FloatR.finite x → |x| = t →
          (⟨name, p.value, p.endTime, zScoreOf stats p⟩ : Anomaly) ∉ l) := by
  refine ⟨ps.filterMap (pointFilter name stats t),
    detect_single d name stats ps t hinit hlook, ?_, ?_, ?_⟩
  · intro p hp
    constructor
    · intro hmem
      rw [List.mem_filterMap] at hmem
      obtain ⟨q, hq, hfq⟩ := hmem
      rw [pointFilter] at hfq
      by_cases hgt : FloatR.absGt (zScoreOf stats q) t
      · rw [if_pos hgt] at hfq
        have heq := Option.some.inj hfq
        have hv : q.value = p.value := congrArg Anomaly.value heq
        have hz : zScoreOf stats q = zScoreOf stats p := by
          rw [zScoreOf, zScoreOf, hv]
        rw [← hz]
        exact hgt
      · rw [if_neg hgt] at hfq
        exact Option.noConfusion hfq
    · intro hgt
      rw [List.mem_filterMap]
      exact ⟨p, hp, by rw [pointFilter, if_pos hgt]⟩
  · intro p hp hinf
    have hgt : FloatR.absGt (zScoreOf stats p) t := by
      rcases hinf with h1 | h1 <;> rw [h1]
      · exact absGt_posInf t
      · exact absGt_negInf t
    rw [List.mem_filterMap]
    exact ⟨p, hp, by rw [pointFilter, if_pos hgt]⟩
  · intro p hp x hx hxt hmem
    rw [List.mem_filterMap] at hmem
    obtain ⟨q, hq, hfq⟩ := hmem
    rw [pointFilter] at hfq
    by_cases hgt : FloatR.absGt (zScoreOf stats q) t
    · rw [if_pos hgt] at hfq
      have heq := Option.some.inj hfq
      have hv : q.value = p.value := congrArg Anomaly.value heq
      have hz : zScoreOf stats q = zScoreOf stats p := by
        rw [zScoreOf, zScoreOf, hv]
      rw [hz, hx, absGt_finite_iff, hxt] at hgt
      exact lt_irrefl t hgt
    · rw [if_neg hgt] at hfq
      exact Option.noConfusion hfq

/-- C7: an update for a metric with no prior record materialises, through
the lenient map read, a record whose baseline fields are zero and whose
current fields are the freshly computed window statistics. -/
theorem claim_C7_lenient_create (d : SimpleAnomalyDetector) (name : String)
    (ps : List MetricPoint) (h0 : d.metricsStats name = none) (h : ps ≠ []) :
    (updateCurrentStats d [⟨name, ps⟩]).metricsStats name =
      some ⟨0, 0, arithMean ps, popStdDev ps⟩ := by
  rw [updateCurrentStats_single d name ps h, h0]
  rfl

/-- C8: initialising and then updating with the identical sample list for
a metric yields a record whose current statistics coincide with its
baseline statistics. -/
theorem claim_C8_update_matches_baseline (d : SimpleAnomalyDetector)
    (name : String) (ps : List MetricPoint) (h : ps ≠ []) :
    ∃ st : MetricStats,
      (updateCurrentStats (getBaseline d [⟨name, ps⟩]) [⟨name, ps⟩]).metricsStats
          name = some st ∧
        st.currentMean = st.mean ∧ st.currentStdDev = st.stddev := by
  refine ⟨⟨arithMean ps, popStdDev ps, arithMean ps, popStdDev ps⟩, ?_, rfl, rfl⟩
  rw [updateCurrentStats_single _ name ps h, getBaseline_single d name ps h]
  rfl

/-! ### Concrete witnesses -/

theorem absGt_goDiv_of_ne (x y t : ℝ) (hy : y ≠ 0) :
    FloatR.absGt (goDiv x y) t ↔ t < |x / y| := by
  rw [goDiv_of_ne x y hy, absGt_finite_iff]

/-- Witness for C1: baseline mean 5, standard deviation 0, threshold 3; the
sample of value 6 is flagged and the sample of value 5 is not. -/
theorem claim_C1_zero_variance_witness :
    (0 : ℝ) < 3 ∧ (6 : ℝ) ≠ 5 ∧ (5 : ℝ) = 5 ∧
    (detectAnomalies
        ⟨mapInsert (fun _ => none) "m" ⟨5, 0, 0, 0⟩, true, fun _ => none⟩
        [⟨"m", [⟨6, 0⟩]⟩] 3).2 =
      Except.ok [⟨"m", 6, 0, zScoreOf ⟨5, 0, 0, 0⟩ ⟨6, 0⟩⟩] ∧
    (detectAnomalies
        ⟨mapInsert (fun _ => none) "m" ⟨5, 0, 0, 0⟩, true, fun _ => none⟩
        [⟨"m", [⟨5, 1⟩]⟩] 3).2 = Except.ok [] := by
  have h := claim_C1_zero_variance
      ⟨mapInsert (fun _ => none) "m" ⟨5, 0, 0, 0⟩, true, fun _ => none⟩
      "m" ⟨5, 0, 0, 0⟩ 3 ⟨6, 0⟩ ⟨5, 1⟩ rfl
      (show mapInsert (fun _ => none) "m" ⟨5, 0, 0, 0⟩ "m" = some ⟨5, 0, 0, 0⟩ from
        mapInsert_self _ _ _) rfl
      (by norm_num) (show (6 : ℝ) ≠ 5 by norm_num) rfl
  exact ⟨by norm_num, by norm_num, rfl, h.1, h.2⟩

/-- Witness for C2: samples 10, 20, 30 give mean 20 and standard deviation
the square root of 200/3. -/
theorem claim_C2_baseline_stats_witness :
    ([⟨10, 0⟩, ⟨20, 1⟩, ⟨30, 2⟩] : List MetricPoint) ≠ [] ∧
    (getBaseline initialDetector
        [⟨"m", [⟨10, 0⟩, ⟨20, 1⟩, ⟨30, 2⟩]⟩]).metricsStats "m" =
      some ⟨20, Real.sqrt (200 / 3), 0, 0⟩ := by
  have hne : ([⟨10, 0⟩, ⟨20, 1⟩, ⟨30, 2⟩] : List MetricPoint) ≠ [] := by simp
  refine ⟨hne, ?_⟩
  rw [claim_C2_baseline_stats initialDetector "m" _ hne]
  norm_num

/-- Witness for C3 at the zero-value detector. -/
theorem claim_C3_not_initialised_witness :
    initialDetector.initialised = false ∧
    detectAnomalies initialDetector [⟨"m", [⟨1, 0⟩]⟩] 3 =
      (initialDetector, Except.error "baseline not initialised") :=
  ⟨rfl, claim_C3_not_initialised initialDetector [⟨"m", [⟨1, 0⟩]⟩] 3 rfl⟩

/-- Witness for C4: baseline mean 100, standard deviation 10, threshold 3;
value 131 (z-score 3.1) is flagged, value 129 (z-score 2.9) is not, and
the boundary value 130 (z-score exactly 3) is not. -/
theorem claim_C4_threshold_strict_witness :
    (⟨mapInsert (fun _ => none) "m" ⟨100, 10, 0, 0⟩, true, fun _ => none⟩ :
        SimpleAnomalyDetector).initialised = true ∧
    mapInsert (fun _ => none) "m" ⟨100, 10, 0, 0⟩ "m" = some ⟨100, 10, 0, 0⟩ ∧
    ∃ l : List Anomaly,
      (detectAnomalies
          ⟨mapInsert (fun _ => none) "m" ⟨100, 10, 0, 0⟩, true, fun _ => none⟩
          [⟨"m", [⟨131, 0⟩, ⟨129, 1⟩, ⟨130, 2⟩]⟩] 3).2 = Except.ok l ∧
      (⟨"m", 131, 0, zScoreOf ⟨100, 10, 0, 0⟩ ⟨131, 0⟩⟩ : Anomaly) ∈ l ∧
      (⟨"m", 129, 1, zScoreOf ⟨100, 10, 0, 0⟩ ⟨129, 1⟩⟩ : Anomaly) ∉ l ∧
      (⟨"m", 130, 2, zScoreOf ⟨100, 10, 0, 0⟩ ⟨130, 2⟩⟩ : Anomaly) ∉ l := by
  obtain ⟨l, hl, hiff, hinf, hbd⟩ :=
    claim_C4_threshold_strict
      ⟨mapInsert (fun _ => none) "m" ⟨100, 10, 0, 0⟩, true, fun _ => none⟩
      "m" ⟨100, 10, 0, 0⟩ [⟨131, 0⟩, ⟨129, 1⟩, ⟨130, 2⟩] 3 rfl
      (show mapInsert (fun _ => none) "m" ⟨100, 10, 0, 0⟩ "m" =
          some ⟨100, 10, 0, 0⟩ from mapInsert_self _ _ _)
  refine ⟨rfl, mapInsert_self _ _ _, l, hl, ?_, ?_, ?_⟩
  · refine (hiff ⟨131, 0⟩ (by simp)).mpr ?_
    show FloatR.absGt (goDiv ((131 : ℝ) - 100) 10) 3
    rw [absGt_goDiv_of_ne _ _ _ (by norm_num),
      abs_of_nonneg (by norm_num : (0 : ℝ) ≤ (131 - 100) / 10)]
    norm_num
  · intro hmem
    have hgt := (hiff ⟨129, 1⟩ (by simp)).mp hmem
    have hz : FloatR.absGt (goDiv ((129 : ℝ) - 100) 10) 3 := hgt
    rw [absGt_goDiv_of_ne _ _ _ (by norm_num)] at hz
    rw [abs_of_nonneg (by norm_num)] at hz
    norm_num at hz
  · refine hbd ⟨130, 2⟩ (by simp) (((130 : ℝ) - 100) / 10) ?_ ?_
    · show goDiv ((130 : ℝ) - 100) 10 = FloatR.finite (((130 : ℝ) - 100) / 10)
      exact goDiv_of_ne _ _ (by norm_num)
    · rw [abs_of_nonneg (by norm_num)]
      norm_num

/-- Witness for C5: a batch in which metric m has no points and metric k
has one; m gets no entry, and the flag is set nevertheless. -/
theorem claim_C5_empty_skip_witness :
    (∀ s ∈ ([⟨"m", []⟩, ⟨"k", [⟨7, 0⟩]⟩] : List TimeSeries),
        s.metricType = "m" → s.points = []) ∧
    (getBaseline initialDetector [⟨"m", []⟩, ⟨"k", [⟨7, 0⟩]⟩]).initialised = true ∧
    (getBaseline initialDetector [⟨"m", []⟩, ⟨"k", [⟨7, 0⟩]⟩]).metricsStats "m" =
      none := by
  have hall : ∀ s ∈ ([⟨"m", []⟩, ⟨"k", [⟨7, 0⟩]⟩] : List TimeSeries),
      s.metricType = "m" → s.points = [] := by
    intro s hs
    rcases List.mem_cons.mp hs with rfl | hs
    · intro _; rfl
    · rcases List.mem_cons.mp hs with rfl | hs
      · intro hk; exact absurd hk (by decide)
      · exact absurd hs (List.not_mem_nil s)
  have h := claim_C5_empty_skip initialDetector [⟨"m", []⟩, ⟨"k", [⟨7, 0⟩]⟩] "m"
  exact ⟨hall, h.1, h.2 hall⟩

/-- Witness for C6: a recorded metric receives an empty window and keeps
its record. -/
theorem claim_C6_empty_update_noop_witness :
    (⟨mapInsert (fun _ => none) "m" ⟨1, 2, 3, 4⟩, true, fun _ => none⟩ :
        SimpleAnomalyDetector).metricsStats "m" = some ⟨1, 2, 3, 4⟩ ∧
    (∀ s ∈ ([⟨"m", []⟩] : List TimeSeries), s.metricType = "m" → s.points = []) ∧
    (updateCurrentStats
        ⟨mapInsert (fun _ => none) "m" ⟨1, 2, 3, 4⟩, true, fun _ => none⟩
        [⟨"m", []⟩]).metricsStats "m" = some ⟨1, 2, 3, 4⟩ := by
  have hall : ∀ s ∈ ([⟨"m", []⟩] : List TimeSeries),
      s.metricType = "m" → s.points = [] := by
    intro s hs
    rcases List.mem_cons.mp hs with rfl | hs
    · intro _; rfl
    · exact absurd hs (List.not_mem_nil s)
  exact ⟨show mapInsert (fun _ => none) "m" ⟨1, 2, 3, 4⟩ "m" = some ⟨1, 2, 3, 4⟩ from
      mapInsert_self _ _ _, hall,
    claim_C6_empty_update_noop _ [⟨"m", []⟩] "m" ⟨1, 2, 3, 4⟩
      (show mapInsert (fun _ => none) "m" ⟨1, 2, 3, 4⟩ "m" = some ⟨1, 2, 3, 4⟩ from
        mapInsert_self _ _ _) hall⟩

/-- Witness for C7: an unknown metric updated with samples 4 and 0 gets a
zero baseline and current mean 2, current standard deviation 2. -/
theorem claim_C7_lenient_create_witness :
    initialDetector.metricsStats "m" = none ∧
    ([⟨4, 0⟩, ⟨0, 1⟩] : List MetricPoint) ≠ [] ∧
    (updateCurrentStats initialDetector [⟨"m", [⟨4, 0⟩, ⟨0, 1⟩]⟩]).metricsStats "m" =
      some ⟨0, 0, 2, 2⟩ := by
  have hne : ([⟨4, 0⟩, ⟨0, 1⟩] : List MetricPoint) ≠ [] := by simp
  have h := claim_C7_lenient_create initialDetector "m" [⟨4, 0⟩, ⟨0, 1⟩] rfl hne
  refine ⟨rfl, hne, ?_⟩
  rw [h]
  have hm : arithMean [⟨4, 0⟩, ⟨0, 1⟩] = 2 := by norm_num [arithMean]
  have hv : popVariance [⟨4, 0⟩, ⟨0, 1⟩] = 4 := by norm_num [popVariance, arithMean]
  have hs : popStdDev [⟨4, 0⟩, ⟨0, 1⟩] = 2 := by
    rw [popStdDev, hv, show (4 : ℝ) = 2 ^ 2 by norm_num,
      Real.sqrt_sq (by norm_num : (0 : ℝ) ≤ 2)]
  rw [hm, hs]

/-- Witness for C8 at the sample list 10, 20, 30. -/
theorem claim_C8_update_matches_baseline_witness :
    ([⟨10, 0⟩, ⟨20, 1⟩, ⟨30, 2⟩] : List MetricPoint) ≠ [] ∧
    ∃ st : MetricStats,
      (updateCurrentStats
          (getBaseline initialDetector [⟨"m", [⟨10, 0⟩, ⟨20, 1⟩, ⟨30, 2⟩]⟩])
          [⟨"m", [⟨10, 0⟩, ⟨20, 1⟩, ⟨30, 2⟩]⟩]).metricsStats "m" = some st ∧
        st.currentMean = st.mean ∧ st.currentStdDev = st.stddev := by
  have hne : ([⟨10, 0⟩, ⟨20, 1⟩, ⟨30, 2⟩] : List MetricPoint) ≠ [] := by simp
  exact ⟨hne, claim_C8_update_matches_baseline initialDetector "m" _ hne⟩

/-- Witness for C9: after one initialisation call with samples 4 and 0 the
stored record is mean 2, standard deviation 2, current fields 0, and both
standard deviations are non-negative. -/
theorem claim_C9_stddev_nonneg_witness :
    (runOps initialDetector
        [EngineOp.init [⟨"m", [⟨4, 0⟩, ⟨0, 1⟩]⟩]]).metricsStats "m" =
      some ⟨2, 2, 0, 0⟩ ∧ (0 : ℝ) ≤ 2 ∧ (0 : ℝ) ≤ 0 := by
  have hm : arithMean [⟨4, 0⟩, ⟨0, 1⟩] = 2 := by norm_num [arithMean]
  have hv : popVariance [⟨4, 0⟩, ⟨0, 1⟩] = 4 := by norm_num [popVariance, arithMean]
  have hs : popStdDev [⟨4, 0⟩, ⟨0, 1⟩] = 2 := by
    rw [popStdDev, hv, show (4 : ℝ) = 2 ^ 2 by norm_num,
      Real.sqrt_sq (by norm_num : (0 : ℝ) ≤ 2)]
  have e : (runOps initialDetector
      [EngineOp.init [⟨"m", [⟨4, 0⟩, ⟨0, 1⟩]⟩]]).metricsStats "m" =
      some ⟨2, 2, 0, 0⟩ := by
    show (getBaseline initialDetector [⟨"m", [⟨4, 0⟩, ⟨0, 1⟩]⟩]).metricsStats "m" =
      some ⟨2, 2, 0, 0⟩
    rw [getBaseline_single _ _ _ (by simp), hm, hs]
  exact ⟨e, claim_C9_stddev_nonneg [EngineOp.init [⟨"m", [⟨4, 0⟩, ⟨0, 1⟩]⟩]]
    "m" ⟨2, 2, 0, 0⟩ e⟩
